import Mathlib

/-!
Shallow embedding of the zerqu caching layer (`src/zerqu/models/base.py`) and
fixed-window rate limiter (`src/zerqu/libs/ratelimit.py`), with theorems
settling the spec claims about them.

Conventions of the embedding:
* Python `str(n)` on a natural-number id is `pyStrNat`; cache values are the
  inductive `EVal` (an entity object or an integer); machine state is passed
  explicitly; a statement that can raise becomes an `Except PyErr` value.
* The cache backend is modelled as a finite partial map from key strings to
  `(value, ttl-as-written)` pairs, plus an availability flag: every backend
  call raises `PyErr.storeUnavailable` when the backend is down, which is how
  a cache failure inside a mutation hook is represented.
-/

namespace Zerqu

/-! ### Decimal stringification of ids (Python `str` on a non-negative int)

`natDigitsAux` is a fuel-indexed structural version of base-10 digit
extraction, so that concrete keys evaluate by `rfl`/`decide`; it agrees with
Mathlib's `Nat.digits 10`, which gives injectivity. -/

def natDigitsAux : Nat → Nat → List Nat
  | _, 0 => []
  | 0, _ + 1 => []
  | fuel + 1, n + 1 => ((n + 1) % 10) :: natDigitsAux fuel ((n + 1) / 10)

def natDigits (n : Nat) : List Nat :=
  natDigitsAux n n

/-- Python `str(n)` for a natural number: big-endian decimal digits. -/
def pyStrNat (n : Nat) : String :=
  if n = 0 then "0" else String.mk (((natDigits n).map Nat.digitChar).reverse)

theorem natDigitsAux_eq_digits (fuel : Nat) :
    ∀ n : Nat, n ≤ fuel → natDigitsAux fuel n = Nat.digits 10 n := by
  induction fuel with
  | zero =>
    intro n hn
    interval_cases n
    simp [natDigitsAux]
  | succ fuel ih =>
    intro n hn
    match n with
    | 0 => simp [natDigitsAux]
    | m + 1 =>
      rw [natDigitsAux, Nat.digits_def' (by norm_num : (1 : Nat) < 10) (Nat.succ_pos m)]
      have hdiv : (m + 1) / 10 < m + 1 := Nat.div_lt_self (Nat.succ_pos m) (by norm_num)
      rw [ih ((m + 1) / 10) (by omega)]

theorem natDigits_eq_digits (n : Nat) : natDigits n = Nat.digits 10 n :=
  natDigitsAux_eq_digits n n le_rfl

theorem digitChar_inj_of_lt_ten {d e : Nat} (hd : d < 10) (he : e < 10)
    (h : Nat.digitChar d = Nat.digitChar e) : d = e := by
  have key : ∀ a b : Fin 10, Nat.digitChar a.val = Nat.digitChar b.val → a = b := by decide
  have := key ⟨d, hd⟩ ⟨e, he⟩ h
  exact congrArg Fin.val this

theorem map_digitChar_inj :
    ∀ l₁ l₂ : List Nat, (∀ d ∈ l₁, d < 10) → (∀ d ∈ l₂, d < 10) →
      l₁.map Nat.digitChar = l₂.map Nat.digitChar → l₁ = l₂ := by
  intro l₁
  induction l₁ with
  | nil =>
    intro l₂ _ _ h
    cases l₂ with
    | nil => rfl
    | cons b t => simp at h
  | cons a t ih =>
    intro l₂ h₁ h₂ h
    cases l₂ with
    | nil => simp at h
    | cons b t₂ =>
      simp only [List.map_cons, List.cons.injEq] at h
      have ha : a = b :=
        digitChar_inj_of_lt_ten (h₁ a (by simp)) (h₂ b (by simp)) h.1
      have ht : t = t₂ :=
        ih t₂ (fun d hd => h₁ d (by simp [hd])) (fun d hd => h₂ d (by simp [hd])) h.2
      rw [ha, ht]

theorem pyStrNat_ne_zero_str {m : Nat} (hm : m ≠ 0) : pyStrNat m ≠ "0" := by
  intro h
  rw [pyStrNat, if_neg hm] at h
  have hdata : (((natDigits m).map Nat.digitChar).reverse) = ['0'] :=
    congrArg String.data h
  rw [natDigits_eq_digits] at hdata
  have hrev : (Nat.digits 10 m).map Nat.digitChar = ['0'] := by
    have := congrArg List.reverse hdata
    simpa using this
  match hL : Nat.digits 10 m with
  | [] => rw [hL] at hrev; simp at hrev
  | d :: rest =>
    rw [hL] at hrev
    simp only [List.map_cons, List.cons.injEq, List.map_eq_nil_iff] at hrev
    have hd10 : d < 10 := Nat.digits_lt_base (by norm_num) (by rw [hL]; simp)
    have hd0 : d = 0 := by
      have : Nat.digitChar d = Nat.digitChar 0 := by
        rw [hrev.1]; rfl
      exact digitChar_inj_of_lt_ten hd10 (by norm_num) this
    have hdig : Nat.digits 10 m = [0] := by rw [hL, hrev.2, hd0]
    have hof := Nat.ofDigits_digits 10 m
    rw [hdig] at hof
    simp [Nat.ofDigits] at hof
    omega

theorem pyStrNat_inj {n m : Nat} (h : pyStrNat n = pyStrNat m) : n = m := by
  by_cases hn : n = 0 <;> by_cases hm : m = 0
  · rw [hn, hm]
  · exfalso
    rw [hn] at h
    exact pyStrNat_ne_zero_str hm h.symm
  · exfalso
    rw [hm] at h
    exact pyStrNat_ne_zero_str hn h
  · rw [pyStrNat, if_neg hn, pyStrNat, if_neg hm] at h
    have hdata0 : ((natDigits n).map Nat.digitChar).reverse
        = ((natDigits m).map Nat.digitChar).reverse := congrArg String.data h
    have hdata := List.reverse_inj.mp hdata0
    have hdig : natDigits n = natDigits m := by
      refine map_digitChar_inj _ _ ?_ ?_ hdata
      · intro d hd
        rw [natDigits_eq_digits] at hd
        exact Nat.digits_lt_base (by norm_num) hd
      · intro d hd
        rw [natDigits_eq_digits] at hd
        exact Nat.digits_lt_base (by norm_num) hd
    rw [natDigits_eq_digits, natDigits_eq_digits] at hdig
    exact Nat.digits_inj_iff.mp hdig

/-! ### Python truthiness and error values -/

/-- The Python exceptions that the embedded code can raise. -/
inductive PyErr where
  /-- the backend of the cache store is unreachable -/
  | storeUnavailable
  /-- `raise NotImplemented` on a composite primary key in `get_dict` -/
  | unsupportedKey
  /-- a dict lookup of a missing key, as in `_itervalues` -/
  | keyError
  /-- arithmetic or conversion applied to `None` -/
  | typeError
deriving DecidableEq, Repr

/-- Python truthiness of a cached optional integer: `None` and `0` are falsy. -/
def falsy : Option Int → Bool
  | none => true
  | some v => decide (v = 0)

/-- Python 2 comparison `x <= c` on a cache value: `None` sorts below ints. -/
def pyLe : Option Int → Int → Bool
  | none, _ => true
  | some v, c => decide (v ≤ c)

/-- Python `int(x)` on a cache value: raises `TypeError` on `None`. -/
def pyInt : Option Int → Except PyErr Int
  | none => .error .typeError
  | some v => .ok v

/-! ### Rate limiter state (`src/zerqu/libs/ratelimit.py`)

The two sibling keys of a window live in the shared cache store; the store is
modelled as a map from key strings to `(integer value, ttl as written)`. -/

def RLStore : Type :=
  String → Option (Int × Int)

/-- Value currently stored under a key (the ttl is invisible to `get_many`). -/
def rlGet (s : RLStore) (k : String) : Option Int :=
  (s k).map Prod.fst

/-- `cache.set(k, v, ttl)` on the rate limiter's store. -/
def rlSet (s : RLStore) (k : String) (v ttl : Int) : RLStore :=
  fun x => if x = k then some (v, ttl) else s x

/-- The empty (cold) store. -/
def rlEmpty : RLStore :=
  fun _ => none

theorem count_key_ne_reset_key (p : String) : p ++ "$c" ≠ p ++ "$r" := by
  intro h
  have hd : p.data ++ ("$c" : String).data = p.data ++ ("$r" : String).data :=
    congrArg String.data h
  exact absurd (List.append_cancel_left hd) (by decide)

theorem reset_key_ne_count_key (p : String) : p ++ "$r" ≠ p ++ "$c" :=
  fun h => count_key_ne_reset_key p h.symm

/-- `ratelimit(prefix, count, duration)` from `src/zerqu/libs/ratelimit.py`,
with the wall clock `int(time.time())` passed in as `now`.  Returns the pair
`(remaining, expires)` that the Python function returns (the raw cache value
`remaining` may be `None` on the over-budget path) together with the store
after the call. -/
def ratelimit (s : RLStore) (pfx : String) (count duration now : Int) :
    Except PyErr (Option Int × Int × RLStore) :=
  let count_key := pfx ++ "$c"
  let reset_key := pfx ++ "$r"
  let remaining := rlGet s count_key
  let resetting := rlGet s reset_key
  if falsy remaining && falsy resetting then
    let rem := count - 1
    let expires_at := duration + now
    let s' := rlSet (rlSet s count_key rem duration) reset_key expires_at duration
    .ok (some rem, duration, s')
  else do
    let r ← pyInt resetting
    let expires := r - now
    if pyLe remaining 0 && expires != 0 then
      .ok (remaining, expires, s)
    else do
      let rv ← pyInt remaining
      let rem := rv - 1
      .ok (some rem, expires, rlSet s count_key rem expires)

/-! ### Rate limiter step lemmas -/

theorem rlGet_eq_some {s : RLStore} {k : String} {v t : Int} (h : s k = some (v, t)) :
    rlGet s k = some v := by
  rw [rlGet, h]
  rfl

theorem ratelimit_cold (s : RLStore) (pfx : String) (count duration now : Int)
    (hc : falsy (rlGet s (pfx ++ "$c")) = true)
    (hr : falsy (rlGet s (pfx ++ "$r")) = true) :
    ratelimit s pfx count duration now =
      .ok (some (count - 1), duration,
        rlSet (rlSet s (pfx ++ "$c") (count - 1) duration)
          (pfx ++ "$r") (duration + now) duration) := by
  simp [ratelimit, hc, hr]

theorem not_cold_cond {rv rt : Int} (hact : ¬(rv = 0 ∧ rt = 0)) :
    ¬((falsy (some rv) && falsy (some rt)) = true) := by
  simp only [Bool.and_eq_true, falsy, decide_eq_true_eq]
  exact hact

theorem ratelimit_over {s : RLStore} {pfx : String} (count duration now : Int)
    {rv rt tc tr : Int}
    (hc : s (pfx ++ "$c") = some (rv, tc)) (hr : s (pfx ++ "$r") = some (rt, tr))
    (hact : ¬(rv = 0 ∧ rt = 0)) (hle : rv ≤ 0) (hne : rt - now ≠ 0) :
    ratelimit s pfx count duration now = .ok (some rv, rt - now, s) := by
  have hover : (pyLe (some rv) 0 && (rt - now != 0)) = true := by
    simp [pyLe, hle, hne]
  simp only [ratelimit, rlGet_eq_some hc, rlGet_eq_some hr, pyInt, Bind.bind, Except.bind]
  rw [if_neg (not_cold_cond hact), if_pos hover]

theorem ratelimit_dec {s : RLStore} {pfx : String} (count duration now : Int)
    {rv rt tc tr : Int}
    (hc : s (pfx ++ "$c") = some (rv, tc)) (hr : s (pfx ++ "$r") = some (rt, tr))
    (hact : ¬(rv = 0 ∧ rt = 0)) (hnot : ¬(rv ≤ 0 ∧ rt - now ≠ 0)) :
    ratelimit s pfx count duration now =
      .ok (some (rv - 1), rt - now, rlSet s (pfx ++ "$c") (rv - 1) (rt - now)) := by
  have hcond : ¬((pyLe (some rv) 0 && (rt - now != 0)) = true) := by
    simp only [Bool.and_eq_true, pyLe, decide_eq_true_eq, bne_iff_ne, ne_eq]
    exact hnot
  simp only [ratelimit, rlGet_eq_some hc, rlGet_eq_some hr, pyInt, Bind.bind, Except.bind]
  rw [if_neg (not_cold_cond hact), if_neg hcond]

/-- A store in an over-budget, logically-expired window: the counter key holds
`0` and the stored reset time `95` already lies in the past at `now = 100`,
yet neither key has physically expired. -/
def rlOverdue : RLStore :=
  fun k => if k = "p$c" then some (0, 5) else if k = "p$r" then some (95, 5) else none

/-- Claim C2, counterexample: in the Active state `rlOverdue` the call at
`now = 100` has `remaining = 0 ≤ 0` and `secondsUntilReset = -5`, which is not
`> 0`, so the claim's "in every other Active state it decrements" requires a
decrement; the code instead returns the stored remaining unchanged and leaves
the store untouched. -/
theorem c2_counterexample :
    ratelimit rlOverdue "p" 3 60 100 = .ok (some 0, -5, rlOverdue) ∧
      ¬((-5 : Int) > 0) ∧ (some (0 : Int) ≠ some (0 - 1 : Int)) :=
  ⟨rfl, by decide, by decide⟩

/-- Claim C2 (amended): in an Active state with both keys present, `ratelimit`
returns the stored remaining and `resetAt - now` without touching the store
exactly when `remaining ≤ 0` and `secondsUntilReset ≠ 0` (not `> 0`: a
negative `secondsUntilReset` also suppresses the decrement); in every other
such state it decrements remaining by `1`, rewrites only the counter key with
TTL `secondsUntilReset`, and returns the decremented remaining. -/
theorem c2_active_behaviour (s : RLStore) (pfx : String)
    (count duration now rv rt tc tr : Int)
    (hc : s (pfx ++ "$c") = some (rv, tc)) (hr : s (pfx ++ "$r") = some (rt, tr))
    (hact : ¬(rv = 0 ∧ rt = 0)) :
    (rv ≤ 0 ∧ rt - now ≠ 0 →
      ratelimit s pfx count duration now = .ok (some rv, rt - now, s)) ∧
    (¬(rv ≤ 0 ∧ rt - now ≠ 0) →
      ratelimit s pfx count duration now =
        .ok (some (rv - 1), rt - now, rlSet s (pfx ++ "$c") (rv - 1) (rt - now))) :=
  ⟨fun h => ratelimit_over count duration now hc hr hact h.1 h.2,
   fun h => ratelimit_dec count duration now hc hr hact h⟩

/-- Witness for `c2_active_behaviour` at the concrete store `rlOverdue`. -/
theorem c2_active_behaviour_witness :
    ratelimit rlOverdue "p" 3 60 100 = .ok (some 0, (95 - 100 : Int), rlOverdue) :=
  (c2_active_behaviour rlOverdue "p" 3 60 100 0 95 5 5 rfl rfl (by decide)).1
    (by constructor <;> decide)

theorem rlSet_self (s : RLStore) (k : String) (v t : Int) :
    rlSet s k v t k = some (v, t) := by
  simp [rlSet]

theorem rlSet_other (s : RLStore) (k : String) (v t : Int) {x : String} (h : x ≠ k) :
    rlSet s k v t x = s x := by
  simp [rlSet, h]

/-- Claim C5: starting from a cold store, four calls inside one window (clock
values are non-negative epoch seconds, `t1 ≤ t2 ≤ t3 ≤ t4 < t1 + 60`) with
`limit = 3`, `duration = 60` return remaining `2, 1, 0, 0` with non-increasing
positive `secondsUntilReset`; the first call seeds `remaining = limit - 1` and
`resetAt = now + duration`, writes both keys with TTL `duration`, and returns
`(limit - 1, duration)`. -/
theorem c5_window_trace (p : String) (t1 t2 t3 t4 : Int) (h0 : 0 ≤ t1)
    (h12 : t1 ≤ t2) (h23 : t2 ≤ t3) (h34 : t3 ≤ t4) (hw : t4 < t1 + 60) :
    ∃ s1 s2 s3 s4,
      ratelimit rlEmpty p 3 60 t1 = .ok (some 2, 60, s1) ∧
      s1 (p ++ "$c") = some (2, 60) ∧
      s1 (p ++ "$r") = some (60 + t1, 60) ∧
      ratelimit s1 p 3 60 t2 = .ok (some 1, 60 + t1 - t2, s2) ∧
      ratelimit s2 p 3 60 t3 = .ok (some 0, 60 + t1 - t3, s3) ∧
      ratelimit s3 p 3 60 t4 = .ok (some 0, 60 + t1 - t4, s4) ∧
      60 + t1 - t2 ≤ 60 ∧ 60 + t1 - t3 ≤ 60 + t1 - t2 ∧
      60 + t1 - t4 ≤ 60 + t1 - t3 ∧ 0 < 60 + t1 - t4 := by
  have hck := count_key_ne_reset_key p
  have hrk := reset_key_ne_count_key p
  have h1 := ratelimit_cold rlEmpty p 3 60 t1 rfl rfl
  norm_num at h1
  have hs1c : rlSet (rlSet rlEmpty (p ++ "$c") 2 60) (p ++ "$r") (60 + t1) 60
      (p ++ "$c") = some (2, 60) := by
    rw [rlSet_other _ _ _ _ hck, rlSet_self]
  have hs1r : rlSet (rlSet rlEmpty (p ++ "$c") 2 60) (p ++ "$r") (60 + t1) 60
      (p ++ "$r") = some (60 + t1, 60) := rlSet_self _ _ _ _
  have h2 := ratelimit_dec 3 60 t2 hs1c hs1r (by norm_num) (by norm_num)
  norm_num at h2
  have hs2c := rlSet_self (rlSet (rlSet rlEmpty (p ++ "$c") 2 60) (p ++ "$r") (60 + t1) 60)
      (p ++ "$c") 1 (60 + t1 - t2)
  have hs2r : rlSet (rlSet (rlSet rlEmpty (p ++ "$c") 2 60) (p ++ "$r") (60 + t1) 60)
      (p ++ "$c") 1 (60 + t1 - t2) (p ++ "$r") = some (60 + t1, 60) := by
    rw [rlSet_other _ _ _ _ hrk]
    exact hs1r
  have h3 := ratelimit_dec 3 60 t3 hs2c hs2r (by norm_num) (by norm_num)
  norm_num at h3
  have hs3c := rlSet_self (rlSet (rlSet (rlSet rlEmpty (p ++ "$c") 2 60) (p ++ "$r")
      (60 + t1) 60) (p ++ "$c") 1 (60 + t1 - t2)) (p ++ "$c") 0 (60 + t1 - t3)
  have hs3r : rlSet (rlSet (rlSet (rlSet rlEmpty (p ++ "$c") 2 60) (p ++ "$r")
      (60 + t1) 60) (p ++ "$c") 1 (60 + t1 - t2)) (p ++ "$c") 0 (60 + t1 - t3)
      (p ++ "$r") = some (60 + t1, 60) := by
    rw [rlSet_other _ _ _ _ hrk]
    exact hs2r
  have h4 := ratelimit_over 3 60 t4 hs3c hs3r (by omega) (by norm_num) (by omega)
  exact ⟨_, _, _, _, h1, hs1c, hs1r, h2, h3, h4, by omega, by omega, by omega, by omega⟩

/-- Sequential `ratelimit` calls at the given clock times, collecting the
returned `(remaining, secondsUntilReset)` pairs and threading the store. -/
def runCalls (pfx : String) (count duration : Int) :
    RLStore → List Int → Except PyErr (List (Option Int × Int) × RLStore)
  | s, [] => .ok ([], s)
  | s, t :: ts => do
    let (r, e, s') ← ratelimit s pfx count duration t
    let (outs, sf) ← runCalls pfx count duration s' ts
    .ok ((r, e) :: outs, sf)

/-- Claim C7: for any sequence of sequential `consume` calls inside a single
window (both keys present, seeded remaining non-negative, every clock value
before the stored reset time), the stored `resetAt` entry is never rewritten,
and the returned remaining values never increase from one call to the next and
never drop below the floor `0`. -/
theorem c7_window_invariant (pfx : String) (count duration : Int) (s : RLStore)
    (rv rt tc tr : Int) (ts : List Int)
    (hc : s (pfx ++ "$c") = some (rv, tc)) (hr : s (pfx ++ "$r") = some (rt, tr))
    (hrv : 0 ≤ rv) (hrt : 0 < rt) (hts : ∀ t ∈ ts, t < rt) :
    ∃ outs sf, runCalls pfx count duration s ts = .ok (outs, sf) ∧
      sf (pfx ++ "$r") = some (rt, tr) ∧
      ∃ vs : List Int, outs.map Prod.fst = vs.map some ∧
        List.Chain' (fun a b => b ≤ a) (rv :: vs) ∧ ∀ v ∈ vs, 0 ≤ v := by
  induction ts generalizing s rv tc with
  | nil => exact ⟨[], s, rfl, hr, [], rfl, by simp, by simp⟩
  | cons t ts ih =>
    have hact : ¬(rv = 0 ∧ rt = 0) := by omega
    have hne : rt - t ≠ 0 := by
      have := hts t (by simp)
      omega
    by_cases hz : rv ≤ 0
    · have h1 := ratelimit_over count duration t hc hr hact hz hne
      obtain ⟨outs, sf, hrun, hrk, vs, hmap, hchain, hnn⟩ :=
        ih s rv tc hc hr hrv (fun u hu => hts u (by simp [hu]))
      refine ⟨(some rv, rt - t) :: outs, sf, ?_, hrk, rv :: vs, ?_, ?_, ?_⟩
      · simp [runCalls, h1, hrun, Bind.bind, Except.bind]
      · simp [hmap]
      · exact List.chain'_cons.mpr ⟨le_rfl, hchain⟩
      · intro v hv
        rcases List.mem_cons.mp hv with h | h
        · omega
        · exact hnn v h
    · have h1 := ratelimit_dec count duration t hc hr hact (fun h => hz h.1)
      have hc' : rlSet s (pfx ++ "$c") (rv - 1) (rt - t) (pfx ++ "$c")
          = some (rv - 1, rt - t) := rlSet_self _ _ _ _
      have hr' : rlSet s (pfx ++ "$c") (rv - 1) (rt - t) (pfx ++ "$r")
          = some (rt, tr) := by
        rw [rlSet_other _ _ _ _ (reset_key_ne_count_key pfx)]
        exact hr
      obtain ⟨outs, sf, hrun, hrk, vs, hmap, hchain, hnn⟩ :=
        ih (rlSet s (pfx ++ "$c") (rv - 1) (rt - t)) (rv - 1) (rt - t) hc' hr'
          (by omega) (fun u hu => hts u (by simp [hu]))
      refine ⟨(some (rv - 1), rt - t) :: outs, sf, ?_, hrk, (rv - 1) :: vs, ?_, ?_, ?_⟩
      · simp [runCalls, h1, hrun, Bind.bind, Except.bind]
      · simp [hmap]
      · exact List.chain'_cons.mpr ⟨by omega, hchain⟩
      · intro v hv
        rcases List.mem_cons.mp hv with h | h
        · omega
        · exact hnn v h

/-- An Active window seeded with remaining `2` and reset time `160`,
both keys carrying TTL `60`. -/
def rlSeeded : RLStore :=
  fun k => if k = "w$c" then some (2, 60) else if k = "w$r" then some (160, 60) else none

/-- Witness for `c5_window_trace` at prefix `ip:1` and clock `0, 10, 20, 30`. -/
theorem c5_window_trace_witness :
    ∃ s1 s2 s3 s4,
      ratelimit rlEmpty "ip:1" 3 60 0 = .ok (some 2, 60, s1) ∧
      s1 ("ip:1" ++ "$c") = some (2, 60) ∧
      s1 ("ip:1" ++ "$r") = some (60 + 0, 60) ∧
      ratelimit s1 "ip:1" 3 60 10 = .ok (some 1, 60 + 0 - 10, s2) ∧
      ratelimit s2 "ip:1" 3 60 20 = .ok (some 0, 60 + 0 - 20, s3) ∧
      ratelimit s3 "ip:1" 3 60 30 = .ok (some 0, 60 + 0 - 30, s4) ∧
      (60 : Int) + 0 - 10 ≤ 60 ∧ (60 : Int) + 0 - 20 ≤ 60 + 0 - 10 ∧
      (60 : Int) + 0 - 30 ≤ 60 + 0 - 20 ∧ (0 : Int) < 60 + 0 - 30 :=
  c5_window_trace "ip:1" 0 10 20 30 (by decide) (by decide) (by decide) (by decide)
    (by decide)

/-- Witness for `c7_window_invariant` on `rlSeeded` with calls at
`110, 120, 130, 140`. -/
theorem c7_window_invariant_witness :
    ∃ outs sf, runCalls "w" 3 60 rlSeeded [110, 120, 130, 140] = .ok (outs, sf) ∧
      sf ("w" ++ "$r") = some (160, 60) ∧
      ∃ vs : List Int, outs.map Prod.fst = vs.map some ∧
        List.Chain' (fun a b => b ≤ a) (2 :: vs) ∧ ∀ v ∈ vs, 0 ≤ v :=
  c7_window_invariant "w" 3 60 rlSeeded 2 160 60 60 [110, 120, 130, 140] rfl rfl
    (by decide) (by decide) (by decide)

/-! ### Entity cache (`src/zerqu/models/base.py`) -/

/-- A mapped entity: a single-column integer primary key plus the duck-typed
column values consulted by `filter_by`. -/
structure Entity where
  eid : Nat
  attrs : List (String × String)
deriving DecidableEq, Repr

/-- A value held by the shared cache store: an entity object or an integer. -/
inductive EVal where
  | ent : Entity → EVal
  | num : Int → EVal
deriving DecidableEq, Repr

/-- Python truthiness of a cache value: objects are truthy, integers iff
nonzero. -/
def evTruthy : EVal → Bool
  | .ent _ => true
  | .num n => decide (n ≠ 0)

/-- The cache backend: a partial map from key strings to `(value, ttl as
written)` plus an availability flag.  Every operation raises
`storeUnavailable` when the backend is down. -/
structure Cache where
  avail : Bool
  data : String → Option (EVal × Nat)

/-- `cache.get(key)`: the stored value, or `None` on a miss. -/
def Cache.get (c : Cache) (k : String) : Except PyErr (Option EVal) :=
  if c.avail then .ok ((c.data k).map Prod.fst) else .error .storeUnavailable

/-- `cache.set(key, value, ttl)`. -/
def Cache.set (c : Cache) (k : String) (v : EVal) (ttl : Nat) : Except PyErr Cache :=
  if c.avail then
    .ok { c with data := fun x => if x = k then some (v, ttl) else c.data x }
  else .error .storeUnavailable

/-- `cache.get_dict(*keys)`: one entry per requested key, `None` on a miss. -/
def Cache.get_dict (c : Cache) (ks : List String) :
    Except PyErr (List (String × Option EVal)) :=
  if c.avail then .ok (ks.map fun k => (k, (c.data k).map Prod.fst))
  else .error .storeUnavailable

/-- `cache.set_many(mapping, ttl)`: uniform ttl for every pair. -/
def Cache.set_many (c : Cache) (kvs : List (String × EVal)) (ttl : Nat) :
    Except PyErr Cache :=
  if c.avail then
    .ok { c with
          data := kvs.foldl
            (fun d kv => fun x => if x = kv.1 then some (kv.2, ttl) else d x)
            c.data }
  else .error .storeUnavailable

/-- `cache.delete_many(*keys)`. -/
def Cache.delete_many (c : Cache) (ks : List String) : Except PyErr Cache :=
  if c.avail then
    .ok { c with data := fun x => if ks.contains x then none else c.data x }
  else .error .storeUnavailable

/-- `cache.inc(key)`: increment an integer counter, starting from `0` when the
key is absent (ttl details are backend-specific and unused by the claims). -/
def Cache.inc (c : Cache) (k : String) : Except PyErr Cache :=
  if c.avail then
    match c.data k with
    | some (.num n, t) =>
      .ok { c with data := fun x => if x = k then some (.num (n + 1), t) else c.data x }
    | some (.ent _, _) => .error .typeError
    | none =>
      .ok { c with data := fun x => if x = k then some (.num 1, 0) else c.data x }
  else .error .storeUnavailable

/-- Static description of a mapped model class together with the current
contents of its backing-store table: the table name, the optional
`__cache_version__`, the number of primary-key columns of the mapper, and the
rows. -/
structure Table where
  tablename : String
  cacheVersion : Option String
  pkCount : Nat
  db : List Entity

/-- The source constant `CACHE_MODEL_PREFIX = 'db'`. -/
def CACHE_MODEL_PFX : String := "db"

/-- `Base.generate_cache_prefix(name)` from `src/zerqu/models/base.py`:
`'db:<name>:<tablename>:'`, with `'|<version>'` spliced in before the trailing
colon when the class declares `__cache_version__`. -/
def cachePfx (tbl : Table) (name : String) : String :=
  let base := CACHE_MODEL_PFX ++ ":" ++ name ++ ":" ++ tbl.tablename
  match tbl.cacheVersion with
  | some v => base ++ "|" ++ v ++ ":"
  | none => base ++ ":"

/-- The `CACHE_TIMES` table from the source. -/
def CACHE_TIMES : String → Nat
  | "get" => 86400
  | "count" => 86400
  | "ff" => 300
  | "fc" => 300
  | _ => 0

/-- Lookup in a Python dict modelled as an association list (keys unique). -/
def alGet {α : Type} : List (String × α) → String → Option α
  | [], _ => none
  | kv :: rest, k => if kv.1 = k then some kv.2 else alGet rest k

/-- Python dict assignment `d[k] = v`: overwrite in place, else append. -/
def alSet {α : Type} : List (String × α) → String → α → List (String × α)
  | [], k, v => [(k, v)]
  | kv :: rest, k, v => if kv.1 = k then (k, v) :: rest else kv :: alSet rest k v

/-- Python `s.lstrip(chars)`: drop leading characters that occur anywhere in
`chars` — a character-set strip, not a string head strip. -/
def pyLstrip (s chars : String) : String :=
  String.mk (s.data.dropWhile fun c => chars.data.contains c)

/-- State threaded through a cached query: the shared cache plus a counter of
backing-store round trips (each ORM query executed adds one). -/
structure DBState where
  cache : Cache
  queries : Nat

/-- `CacheQuery.get_dict(idents)` from `src/zerqu/models/base.py`.  Returns
the Python dict (stripped key ↦ entity or `None`) together with the updated
state.  The iteration order of the Python key set is modelled as the
first-occurrence order of `idents`; the lookup `rv[prefix + str(i)]` is total
because every such key was requested. -/
def get_dict (tbl : Table) (st : DBState) (idents : List Nat) :
    Except PyErr (List (String × Option EVal) × DBState) :=
  if idents.isEmpty then .ok ([], st)
  else if tbl.pkCount ≠ 1 then .error .unsupportedKey
  else do
    let pfx := cachePfx tbl "get"
    let keys := (idents.map fun i => pfx ++ pyStrNat i).dedup
    let rv0 ← st.cache.get_dict keys
    let missed := idents.filter fun i => ((alGet rv0 (pfx ++ pyStrNat i)).join).isNone
    let rv1 := rv0.foldl (fun acc kv => alSet acc (pyLstrip kv.1 pfx) kv.2) []
    if missed.isEmpty then
      .ok (rv1, st)
    else do
      let missing := tbl.db.filter fun e => missed.contains e.eid
      let pair := missing.foldl
        (fun (acc : List (String × EVal) × List (String × Option EVal)) item =>
          (alSet acc.1 (pfx ++ pyStrNat item.eid) (.ent item),
           alSet acc.2 (pyStrNat item.eid) (some (.ent item))))
        ([], rv1)
      let c ← st.cache.set_many pair.1 (CACHE_TIMES "get")
      .ok (pair.2, { cache := c, queries := st.queries + 1 })

/-- `_itervalues(data, idents)`: yield `data[str(k)]` for each ident in caller
order, skipping `None` values; a missing dict key raises `KeyError`. -/
def _itervalues (data : List (String × Option EVal)) : List Nat → Except PyErr (List EVal)
  | [] => .ok []
  | i :: rest =>
    match alGet data (pyStrNat i) with
    | none => .error .keyError
    | some item => do
      let tail ← _itervalues data rest
      match item with
      | none => .ok tail
      | some v => .ok (v :: tail)

/-- `CacheQuery.get_many(idents, clean=True)` — the batch get.  (The
`clean=False` variant returns the raw dict values and is unused here.) -/
def get_many (tbl : Table) (st : DBState) (idents : List Nat) :
    Except PyErr (List EVal × DBState) := do
  let (d, st') ← get_dict tbl st idents
  let vs ← _itervalues d idents
  .ok (vs, st')

/-- The filter-key suffix `'-'.join('%s$%s' % (k, kwargs[k]))` in the given
iteration order. -/
def joinKwargs (kwargs : List (String × String)) : String :=
  String.intercalate "-" (kwargs.map fun kv => kv.1 ++ "$" ++ kv.2)

/-- The row predicate of `filter_by(**kwargs)`: equality on every named
column. -/
def matchesKwargs (e : Entity) (kwargs : List (String × String)) : Bool :=
  kwargs.all fun kv => alGet e.attrs kv.1 == some kv.2

/-- `CacheQuery.filter_count(**kwargs)` from `src/zerqu/models/base.py`.
With no kwargs this is the unqualified `count()` path, whose cache-hit test is
`rv is not None`; with kwargs the hit test is Python truthiness `if rv:`. -/
def filter_count (tbl : Table) (st : DBState) (kwargs : List (String × String)) :
    Except PyErr (EVal × DBState) :=
  if kwargs.isEmpty then do
    let key := cachePfx tbl "count"
    let rv ← st.cache.get key
    match rv with
    | some v => .ok (v, st)
    | none => do
      let cnt : Int := tbl.db.length
      let c ← st.cache.set key (.num cnt) (CACHE_TIMES "count")
      .ok (.num cnt, { cache := c, queries := st.queries + 1 })
  else do
    let key := cachePfx tbl "fc" ++ joinKwargs kwargs
    let rv ← st.cache.get key
    let compute : Except PyErr (EVal × DBState) := do
      let cnt : Int := (tbl.db.filter fun e => matchesKwargs e kwargs).length
      let c ← st.cache.set key (.num cnt) (CACHE_TIMES "fc")
      .ok (.num cnt, { cache := c, queries := st.queries + 1 })
    match rv with
    | some v => if evTruthy v then .ok (v, st) else compute
    | none => compute

/-- `_unique_suffix(target, primary_key)` for the single-column-key model. -/
def _unique_suffix (target : Entity) : String :=
  pyStrNat target.eid

/-- `_unique_key(target, primary_key)`: the `get`-keyed cache key of an
entity. -/
def _unique_key (tbl : Table) (target : Entity) : String :=
  cachePfx tbl "get" ++ _unique_suffix target

/-- The `after_insert` hook installed by `Base.__declare_last__`: increment
the class's unqualified count key.  No error handling surrounds the call. -/
def receive_after_insert (tbl : Table) (c : Cache) (_target : Entity) :
    Except PyErr Cache :=
  c.inc (cachePfx tbl "count")

/-- The `after_update` hook: overwrite the `get`-keyed entry with the fresh
entity at the full `get` TTL.  No error handling surrounds the call. -/
def receive_after_update (tbl : Table) (c : Cache) (target : Entity) :
    Except PyErr Cache :=
  c.set (_unique_key tbl target) (.ent target) (CACHE_TIMES "get")

/-- The `after_delete` hook: delete the `get`-keyed entry and the unqualified
count key.  No error handling surrounds the call. -/
def receive_after_delete (tbl : Table) (c : Cache) (target : Entity) :
    Except PyErr Cache :=
  c.delete_many [_unique_key tbl target, cachePfx tbl "count"]

/-! ### Concrete fixtures used by counterexamples and witnesses -/

/-- A plain mapped class `topic` (no cache version, single-column key) whose
backing table holds the rows with ids `2` and `3`. -/
def tblTopic : Table := ⟨"topic", none, 1, [⟨2, []⟩, ⟨3, []⟩]⟩

/-- A cache whose backend is down: every operation raises. -/
def cacheDown : Cache := ⟨false, fun _ => none⟩

def entOne : Entity := ⟨1, []⟩

/-! ### Claim C1 — mutation hooks and cache failures -/

/-- Claim C1, counterexample: with the cache backend down, the after-insert
hook evaluates to the store failure itself — the error escapes the hook
instead of being caught and discarded, so it reaches the triggering
mutation. -/
theorem c1_counterexample :
    receive_after_insert tblTopic cacheDown entOne = .error .storeUnavailable := rfl

/-- Claim C1 (amended): the three after-mutation hooks install no error
handling, so a cache-store failure raised inside the count increment, the
get-key refresh, or the key deletion propagates out of the hook as the error
of the triggering mutation rather than being caught and discarded. -/
theorem c1_hooks_propagate (tbl : Table) (c : Cache) (e : Entity)
    (hdown : c.avail = false) :
    receive_after_insert tbl c e = .error .storeUnavailable ∧
    receive_after_update tbl c e = .error .storeUnavailable ∧
    receive_after_delete tbl c e = .error .storeUnavailable := by
  refine ⟨?_, ?_, ?_⟩ <;>
    simp [receive_after_insert, receive_after_update, receive_after_delete,
      Cache.inc, Cache.set, Cache.delete_many, hdown]

/-- Witness for `c1_hooks_propagate` on the down cache. -/
theorem c1_hooks_propagate_witness :
    receive_after_insert tblTopic cacheDown entOne = .error .storeUnavailable ∧
    receive_after_update tblTopic cacheDown entOne = .error .storeUnavailable ∧
    receive_after_delete tblTopic cacheDown entOne = .error .storeUnavailable :=
  c1_hooks_propagate tblTopic cacheDown entOne rfl

/-! ### Claim C3 — batch get order preservation and the `lstrip` slip -/

/-- A `topic` class declaring `__cache_version__ = 1`, which puts the digit
`1` into the character set of the key prefix. -/
def tblVersioned : Table := ⟨"topic", some "1", 1, []⟩

/-- A cache warm at the `get` key of id `1` for `tblVersioned`. -/
def cacheWarmOne : Cache :=
  ⟨true, fun k => if k = "db:get:topic|1:1" then some (.ent ⟨1, []⟩, 86400) else none⟩

/-- Claim C3: `get_dict` rebuilds its dict with `k.lstrip(prefix)`, which
strips prefix *characters* rather than the prefix string.  On a cache hit
whose id string consists only of characters occurring in the prefix (here id
`1`, with the digit `1` in the prefix via `__cache_version__ = 1`) the key
collapses to `""`, and the order-preserving merge then crashes with a
`KeyError` instead of returning the entity list in caller order. -/
theorem c3_lstrip_keyerror :
    pyLstrip "db:get:topic|1:1" (cachePfx tblVersioned "get") = "" ∧
    get_many tblVersioned ⟨cacheWarmOne, 0⟩ [1] = .error .keyError :=
  ⟨rfl, rfl⟩

/-- A cache warm at the `get` key of id `1` for `tblTopic` (no version, so no
digit occurs in the prefix and digit ids survive the `lstrip`). -/
def cacheTopicOne : Cache :=
  ⟨true, fun k => if k = "db:get:topic:1" then some (.ent entOne, 86400) else none⟩

/-- On inputs where the `lstrip` slip is harmless (digit-free prefix, digit
ids), the batch get does return the found entities in exactly the caller's id
order with absent ids dropped: `get_many [3, 1, 2]` with id `1` cached and
ids `2`, `3` only in the backing store yields `[entity 3, entity 1,
entity 2]`. -/
theorem get_many_order_example :
    (get_many tblTopic ⟨cacheTopicOne, 0⟩ [3, 1, 2]).map Prod.fst =
      .ok [.ent ⟨3, []⟩, .ent entOne, .ent ⟨2, []⟩] := rfl

/-! ### Claim C8 — composite primary keys -/

/-- A mapped class whose primary key has two columns. -/
def tblCompositeKey : Table := ⟨"pair", none, 2, []⟩

/-- An available, empty cache with no queries issued. -/
def stEmptyCache : DBState := ⟨⟨true, fun _ => none⟩, 0⟩

/-- Claim C8, counterexample: on a composite-key type the batch get with an
empty id sequence returns normally — `if not idents: return {}` precedes the
primary-key arity check — so the operation does not fail for *every* call on
such a type. -/
theorem c8_counterexample :
    get_dict tblCompositeKey stEmptyCache [] = .ok ([], stEmptyCache) ∧
    1 < tblCompositeKey.pkCount :=
  ⟨rfl, by decide⟩

/-- Claim C8 (amended): for every entity type whose primary key has more than
one column, the batch get with any non-empty id sequence fails with the
unsupported-key programming error (the `raise NotImplemented` in `get_dict`)
rather than returning a value. -/
theorem c8_composite_raises (tbl : Table) (st : DBState) (idents : List Nat)
    (hpk : 1 < tbl.pkCount) (hne : idents ≠ []) :
    get_dict tbl st idents = .error .unsupportedKey := by
  have h1 : idents.isEmpty = false := by
    cases idents
    · exact absurd rfl hne
    · rfl
  have h2 : tbl.pkCount ≠ 1 := by omega
  simp [get_dict, h1, h2]

/-- Witness for `c8_composite_raises` at a singleton id list. -/
theorem c8_composite_raises_witness :
    get_dict tblCompositeKey stEmptyCache [1] = .error .unsupportedKey :=
  c8_composite_raises tblCompositeKey stEmptyCache [1] (by decide) (by decide)

/-! ### Claim C9 — key determinism and injectivity -/

/-- The `get` cache key built by `CacheQuery.get` for a single-column id. -/
def get_key (tbl : Table) (ident : Nat) : String :=
  cachePfx tbl "get" ++ pyStrNat ident

/-- The filter cache key built by `CacheQuery.filter_first`. -/
def ff_key (tbl : Table) (kwargs : List (String × String)) : String :=
  cachePfx tbl "ff" ++ joinKwargs kwargs

/-- Claim C9: cache-key construction is pure — for a fixed entity type, the
prefix for an operation kind (and optional cache version), the `get` key of a
primary key, and the filter key of a predicate list in a fixed iteration
order are functions of their inputs, so two invocations agree — and on any
single-column-key type, distinct primary keys produce distinct `get` keys
(exactly, not merely with overwhelming probability). -/
theorem c9_key_determinism (tbl : Table) (op : String) (i j : Nat)
    (kwargs : List (String × String)) :
    cachePfx tbl op = cachePfx tbl op ∧
    get_key tbl i = get_key tbl i ∧
    ff_key tbl kwargs = ff_key tbl kwargs ∧
    (i ≠ j → get_key tbl i ≠ get_key tbl j) := by
  refine ⟨rfl, rfl, rfl, fun hij h => hij ?_⟩
  have hd : (cachePfx tbl "get").data ++ (pyStrNat i).data
      = (cachePfx tbl "get").data ++ (pyStrNat j).data := congrArg String.data h
  exact pyStrNat_inj (String.ext (List.append_cancel_left hd))

/-- Witness for `c9_key_determinism` at ids `1 ≠ 2` on `tblTopic`. -/
theorem c9_key_determinism_witness :
    get_key tblTopic 1 ≠ get_key tblTopic 2 :=
  (c9_key_determinism tblTopic "get" 1 2 [("a", "b")]).2.2.2 (by decide)

/-! ### Claim C6 — the after-delete hook and the next count -/

/-- Claim C6: the after-delete hook removes exactly the `get`-keyed entry of
the deleted entity's primary key and the type's unqualified count key — every
other key is untouched and the count is never decremented, merely dropped —
so the next unqualified `count()` call misses the cache, recomputes the exact
count from the backing store, and re-caches it. -/
theorem c6_delete_then_recount (tbl : Table) (c : Cache) (e : Entity)
    (hav : c.avail = true) :
    ∃ c', receive_after_delete tbl c e = .ok c' ∧
      c'.data (_unique_key tbl e) = none ∧
      c'.data (cachePfx tbl "count") = none ∧
      (∀ k, k ≠ _unique_key tbl e → k ≠ cachePfx tbl "count" →
        c'.data k = c.data k) ∧
      c'.avail = true ∧
      ∀ q : Nat, ∃ c'', filter_count tbl ⟨c', q⟩ [] =
          .ok (.num (tbl.db.length : Int), ⟨c'', q + 1⟩) ∧
        c''.data (cachePfx tbl "count")
          = some (.num (tbl.db.length : Int), 86400) := by
  have hdel : receive_after_delete tbl c e = .ok
      { c with data := fun x =>
          if [_unique_key tbl e, cachePfx tbl "count"].contains x then none
          else c.data x } := by
    simp [receive_after_delete, Cache.delete_many, hav]
  refine ⟨_, hdel, by simp, by simp, ?_, hav, ?_⟩
  · intro k h1 h2
    simp [h1, h2]
  · intro q
    refine ⟨{ c with data := (fun x =>
        if x = cachePfx tbl "count" then some (.num (tbl.db.length : Int), 86400)
        else if [_unique_key tbl e, cachePfx tbl "count"].contains x then none
        else c.data x) }, ?_, by simp⟩
    simp [filter_count, Cache.get, Cache.set, hav, CACHE_TIMES, Bind.bind, Except.bind]

/-- A cache holding both the `get` entry of id `1` and a count of `7` for
`tblTopic`. -/
def cacheWarmFull : Cache :=
  ⟨true, fun k =>
    if k = "db:get:topic:1" then some (.ent entOne, 86400)
    else if k = "db:count:topic:" then some (.num 7, 86400) else none⟩

/-- Witness for `c6_delete_then_recount` on a fully warmed cache. -/
theorem c6_delete_then_recount_witness :
    ∃ c', receive_after_delete tblTopic cacheWarmFull entOne = .ok c' ∧
      c'.data (_unique_key tblTopic entOne) = none ∧
      c'.data (cachePfx tblTopic "count") = none ∧
      (∀ k, k ≠ _unique_key tblTopic entOne → k ≠ cachePfx tblTopic "count" →
        c'.data k = cacheWarmFull.data k) ∧
      c'.avail = true ∧
      ∀ q : Nat, ∃ c'', filter_count tblTopic ⟨c', q⟩ [] =
          .ok (.num (tblTopic.db.length : Int), ⟨c'', q + 1⟩) ∧
        c''.data (cachePfx tblTopic "count")
          = some (.num (tblTopic.db.length : Int), 86400) :=
  c6_delete_then_recount tblTopic cacheWarmFull entOne rfl

/-! ### Claim C10 — the zero-count caching asymmetry -/

/-- Claim C10: with a non-empty predicate, `filter_count` never serves a
cached `0` — whenever the cached value under the `fc` key is absent or `0`,
it re-executes the backing count query, returns the true count, and re-caches
it at the short `fc` TTL — whereas the unqualified `count()` path returns a
cached `0` without querying, because its hit test `rv is not None`
distinguishes absent from `0`. -/
theorem c10_zero_count_policy (tbl : Table) (st : DBState)
    (kwargs : List (String × String)) (hav : st.cache.avail = true) :
    (kwargs ≠ [] →
      ((st.cache.data (cachePfx tbl "fc" ++ joinKwargs kwargs)).map Prod.fst = none ∨
        (st.cache.data (cachePfx tbl "fc" ++ joinKwargs kwargs)).map Prod.fst
          = some (.num 0)) →
      ∃ c', filter_count tbl st kwargs =
          .ok (.num ((tbl.db.filter fun e => matchesKwargs e kwargs).length : Int),
            ⟨c', st.queries + 1⟩) ∧
        c'.data (cachePfx tbl "fc" ++ joinKwargs kwargs)
          = some (.num ((tbl.db.filter fun e => matchesKwargs e kwargs).length : Int),
              300)) ∧
    ((st.cache.data (cachePfx tbl "count")).map Prod.fst = some (.num 0) →
      filter_count tbl st [] = .ok (.num 0, st)) := by
  constructor
  · intro hkw hzero
    have hkwe : kwargs.isEmpty = false := by
      cases kwargs
      · exact absurd rfl hkw
      · rfl
    refine ⟨{ st.cache with data := (fun x =>
        if x = cachePfx tbl "fc" ++ joinKwargs kwargs then
          some (.num ((tbl.db.filter fun e => matchesKwargs e kwargs).length : Int), 300)
        else st.cache.data x) }, ?_, by simp⟩
    rcases hzero with hz | hz
    · simp [filter_count, hkwe, Cache.get, hav, hz, Cache.set, CACHE_TIMES,
        Bind.bind, Except.bind]
    · simp [filter_count, hkwe, Cache.get, hav, hz, evTruthy, Cache.set, CACHE_TIMES,
        Bind.bind, Except.bind]
  · intro hz
    simp [filter_count, Cache.get, hav, hz, Bind.bind, Except.bind]

/-- A cache holding `0` under both the unqualified count key and the
`fc` key of the predicate `[("a", "b")]` for `tblTopic`. -/
def cacheZeroCounts : Cache :=
  ⟨true, fun k =>
    if k = "db:count:topic:" then some (.num 0, 86400)
    else if k = "db:fc:topic:a$b" then some (.num 0, 300) else none⟩

/-- Witness for `c10_zero_count_policy` on cached zeros: the qualified count
requeries (one more query, true count re-cached), the unqualified count
serves the cached `0` untouched. -/
theorem c10_zero_count_policy_witness :
    (∃ c', filter_count tblTopic ⟨cacheZeroCounts, 5⟩ [("a", "b")] =
        .ok (.num 0, ⟨c', 6⟩) ∧
      c'.data "db:fc:topic:a$b" = some (.num 0, 300)) ∧
    filter_count tblTopic ⟨cacheZeroCounts, 5⟩ [] = .ok (.num 0, ⟨cacheZeroCounts, 5⟩) :=
  ⟨(c10_zero_count_policy tblTopic ⟨cacheZeroCounts, 5⟩ [("a", "b")] rfl).1
      (by decide) (Or.inr rfl),
   (c10_zero_count_policy tblTopic ⟨cacheZeroCounts, 5⟩ [("a", "b")] rfl).2 rfl⟩

/-! ### Claim C4 — exactly one backing-store round trip -/

theorem alGet_map_self {β : Type} (f : String → β) :
    ∀ (l : List String) (k : String), k ∈ l →
      alGet (l.map fun x => (x, f x)) k = some (f k) := by
  intro l
  induction l with
  | nil =>
    intro k hk
    simp at hk
  | cons a t ih =>
    intro k hk
    simp only [List.map_cons, alGet]
    by_cases hak : a = k
    · subst hak
      simp
    · rw [if_neg hak]
      rcases List.mem_cons.mp hk with h | h
      · exact absurd h.symm hak
      · exact ih k h

theorem get_dict_all_hit (tbl : Table) (st : DBState) (idents : List Nat)
    (hpk : tbl.pkCount = 1) (hav : st.cache.avail = true)
    (hall : ∀ i ∈ idents, (st.cache.data (get_key tbl i)).isSome = true) :
    ∃ d, get_dict tbl st idents = .ok (d, st) := by
  by_cases hempty : idents.isEmpty = true
  · rw [List.isEmpty_iff.mp hempty]
    exact ⟨[], rfl⟩
  · have hpk2 : ¬(tbl.pkCount ≠ 1) := by omega
    have hget : ∀ ks : List String, st.cache.get_dict ks
        = .ok (ks.map fun k => (k, (st.cache.data k).map Prod.fst)) := by
      intro ks
      simp [Cache.get_dict, hav]
    have hall' : ∀ i ∈ idents,
        (st.cache.data (cachePfx tbl "get" ++ pyStrNat i)).isSome = true := hall
    exact ⟨_, by
      simp only [get_dict]
      rw [if_neg hempty, if_neg hpk2, hget]
      simp only [Bind.bind, Except.bind]
      split
      · rfl
      · rename_i hmiss
        exfalso
        apply hmiss
        rw [List.isEmpty_iff, List.filter_eq_nil_iff]
        intro i hi
        rw [alGet_map_self _ _ _ (List.mem_dedup.mpr (List.mem_map_of_mem _ hi))]
        rcases Option.isSome_iff_exists.mp (hall' i hi) with ⟨v, hv⟩
        rw [hv]
        simp⟩

theorem get_dict_some_miss (tbl : Table) (st : DBState) (idents : List Nat)
    (hpk : tbl.pkCount = 1) (hav : st.cache.avail = true)
    (hmiss : ∃ i ∈ idents, (st.cache.data (get_key tbl i)).isSome = false) :
    ∃ d c', get_dict tbl st idents
      = .ok (d, { cache := c', queries := st.queries + 1 }) := by
  obtain ⟨i0, hi0, hnone⟩ := hmiss
  have hempty : ¬(idents.isEmpty = true) := by
    cases idents
    · simp at hi0
    · simp
  have hpk2 : ¬(tbl.pkCount ≠ 1) := by omega
  have hget : ∀ ks : List String, st.cache.get_dict ks
      = .ok (ks.map fun k => (k, (st.cache.data k).map Prod.fst)) := by
    intro ks
    simp [Cache.get_dict, hav]
  have hsm : ∀ kvs (ttl : Nat), st.cache.set_many kvs ttl
      = .ok { st.cache with
          data := kvs.foldl
            (fun d kv => fun x => if x = kv.1 then some (kv.2, ttl) else d x)
            st.cache.data } := by
    intro kvs ttl
    simp [Cache.set_many, hav]
  have hv : st.cache.data (cachePfx tbl "get" ++ pyStrNat i0) = none := by
    cases ho : st.cache.data (get_key tbl i0) with
    | none => exact ho
    | some v =>
      rw [ho] at hnone
      simp at hnone
  exact ⟨_, _, by
    simp only [get_dict]
    rw [if_neg hempty, if_neg hpk2, hget]
    simp only [Bind.bind, Except.bind]
    split
    · rename_i hhit
      exfalso
      have hfa := List.isEmpty_iff.mp hhit
      rw [List.filter_eq_nil_iff] at hfa
      apply hfa i0 hi0
      rw [alGet_map_self _ _ _ (List.mem_dedup.mpr (List.mem_map_of_mem _ hi0))]
      rw [hv]
      simp
    · rw [hsm]⟩

/-- Claim C4: with a single-column key and an available cache, every batch
get succeeds, and the backing store is queried exactly once when at least one
id misses the cache and not at all when every id hits. -/
theorem c4_single_roundtrip (tbl : Table) (st : DBState) (idents : List Nat)
    (hpk : tbl.pkCount = 1) (hav : st.cache.avail = true) :
    ∃ d st', get_dict tbl st idents = .ok (d, st') ∧
      st'.queries =
        (if ∀ i ∈ idents, (st.cache.data (get_key tbl i)).isSome = true
         then st.queries else st.queries + 1) := by
  by_cases hall : ∀ i ∈ idents, (st.cache.data (get_key tbl i)).isSome = true
  · obtain ⟨d, hd⟩ := get_dict_all_hit tbl st idents hpk hav hall
    exact ⟨d, st, hd, by rw [if_pos hall]⟩
  · have hx : ∃ i ∈ idents, (st.cache.data (get_key tbl i)).isSome = false := by
      push_neg at hall
      obtain ⟨i, hi, hne⟩ := hall
      exact ⟨i, hi, by simpa using hne⟩
    obtain ⟨d, c', hd⟩ := get_dict_some_miss tbl st idents hpk hav hx
    exact ⟨d, _, hd, by rw [if_neg hall]⟩

/-- Witness for `c4_single_roundtrip`: ids `[3, 1, 2]` against `tblTopic`
with only id `1` cached (a partial miss). -/
theorem c4_single_roundtrip_witness :
    ∃ d st', get_dict tblTopic ⟨cacheTopicOne, 0⟩ [3, 1, 2] = .ok (d, st') ∧
      st'.queries =
        (if ∀ i ∈ [3, 1, 2],
            ((⟨cacheTopicOne, 0⟩ : DBState).cache.data (get_key tblTopic i)).isSome = true
         then (⟨cacheTopicOne, 0⟩ : DBState).queries
         else (⟨cacheTopicOne, 0⟩ : DBState).queries + 1) :=
  c4_single_roundtrip tblTopic ⟨cacheTopicOne, 0⟩ [3, 1, 2] rfl rfl

end Zerqu
